import Mathlib

/-!
Shallow embedding of the booking engine in `src/db.py` of the
cinema-booking-bot repository, together with proofs checking the
natural-language specification against it.

The SQLite database is modelled as an explicit state (`DB`): the
`screenings` table and the `bookings` table become lists of rows, and the
`AUTOINCREMENT` counter for booking ids becomes the field `nextBookingId`.
Each Python function of `db.py` becomes a Lean function from the pre-state
to its return value paired with the post-state.  Timestamps
(`datetime.utcnow().isoformat(...)`) are passed in as an explicit `now`
argument.  A statement that can raise `sqlite3.IntegrityError` (the INSERT
in `create_booking`, which is subject to the schema constraint
`UNIQUE (screening_id, user_id)` on the `bookings` table) is embedded with
`Except String`: `.error` is the raised exception, in which case the
transaction is rolled back and the state is unchanged.
-/

/-- Row of the `screenings` table: `id INTEGER PRIMARY KEY, date TEXT,
title TEXT, capacity INTEGER` (see `init_db` in `db.py`). -/
structure Screening where
  id : Int
  date : String
  title : String
  capacity : Int
deriving DecidableEq, Repr

/-- Row of the `bookings` table: `id INTEGER PRIMARY KEY AUTOINCREMENT,
screening_id, user_id, username, full_name, created_at, canceled_at,
UNIQUE (screening_id, user_id)` (see `init_db` in `db.py`).
`canceled_at = none` means the booking is active. -/
structure Booking where
  id : Int
  screening_id : Int
  user_id : Int
  username : Option String
  full_name : Option String
  created_at : String
  canceled_at : Option String
deriving DecidableEq, Repr

/-- The whole SQLite database file.  `nextBookingId` is the value the
`AUTOINCREMENT` sequence will assign to the next inserted booking row. -/
structure DB where
  screenings : List Screening
  bookings : List Booking
  nextBookingId : Int
deriving DecidableEq, Repr

/-- A booking row counts toward the occupancy of screening `sid` when it
references `sid` and `canceled_at IS NULL`. -/
def activeFor (sid : Int) (b : Booking) : Bool :=
  decide (b.screening_id = sid ∧ b.canceled_at = none)

/-- An active booking row of user `uid` for screening `sid`
(the WHERE clause of the "уже записан?" check in `create_booking`). -/
def activePairFor (sid uid : Int) (b : Booking) : Bool :=
  decide (b.screening_id = sid ∧ b.user_id = uid ∧ b.canceled_at = none)

/-- Any booking row (active or canceled) of user `uid` for screening `sid`:
this is the scope of the schema constraint `UNIQUE (screening_id, user_id)`. -/
def pairFor (sid uid : Int) (b : Booking) : Bool :=
  decide (b.screening_id = sid ∧ b.user_id = uid)

/-- `SELECT COUNT(*) FROM bookings WHERE screening_id = ? AND canceled_at
IS NULL` — the occupancy of a screening. -/
def occupancy (db : DB) (sid : Int) : Nat :=
  db.bookings.countP (activeFor sid)

/-- The message of the `sqlite3.IntegrityError` raised when the INSERT in
`create_booking` violates `UNIQUE (screening_id, user_id)`. -/
def uniqueViolation : String :=
  "UNIQUE constraint failed: bookings.screening_id, bookings.user_id"

/-- The booking row the INSERT of `create_booking` adds: `canceled_at` is
NULL, `created_at` is the current time, and the id comes from the
`AUTOINCREMENT` sequence. -/
def newBookingRow (db : DB) (screening_id user_id : Int)
    (username full_name : Option String) (now : String) : Booking :=
  { id := db.nextBookingId, screening_id := screening_id, user_id := user_id
    username := username, full_name := full_name, created_at := now
    canceled_at := none }

/-- Effect of a committed INSERT into `bookings`: the new row is appended
and the `AUTOINCREMENT` sequence advances. -/
def insertBooking (db : DB) (b : Booking) : DB :=
  { db with bookings := db.bookings ++ [b], nextBookingId := db.nextBookingId + 1 }

/-- Embeds `create_booking` of `db.py`.  Returns the status string the
Python function returns, or `.error` when the INSERT raises
`sqlite3.IntegrityError` because a row (active or canceled) for the same
`(screening_id, user_id)` already exists — the Python code does not catch
this exception, and the connection is closed without commit, so the state
is unchanged on that path. -/
def create_booking (db : DB) (screening_id user_id : Int)
    (username full_name : Option String) (now : String) :
    Except String (String × DB) :=
  match db.screenings.find? (fun s => decide (s.id = screening_id)) with
  | none => .ok ("no_screening", db)
  | some s =>
    if db.bookings.any (activePairFor screening_id user_id) then
      .ok ("already", db)
    else
      let booked : Nat := db.bookings.countP (activeFor screening_id)
      if s.capacity ≤ (booked : Int) then
        .ok ("full", db)
      else
        if db.bookings.any (pairFor screening_id user_id) then
          .error uniqueViolation
        else
          .ok ("ok",
            insertBooking db
              (newBookingRow db screening_id user_id username full_name now))

/-- The WHERE clause of the UPDATE in `cancel_booking`:
`id = ? AND user_id = ? AND canceled_at IS NULL`. -/
def cancelMatch (booking_id user_id : Int) (b : Booking) : Bool :=
  decide (b.id = booking_id ∧ b.user_id = user_id ∧ b.canceled_at = none)

/-- Embeds `cancel_booking` of `db.py`: `UPDATE bookings SET canceled_at =
now WHERE id = ? AND user_id = ? AND canceled_at IS NULL`, returning
`cur.rowcount > 0`. -/
def cancel_booking (db : DB) (booking_id user_id : Int) (now : String) :
    Bool × DB :=
  (decide (0 < db.bookings.countP (cancelMatch booking_id user_id)),
   { db with
     bookings := db.bookings.map (fun b =>
       if cancelMatch booking_id user_id b then
         { b with canceled_at := some now }
       else b) })

/-- View row produced by `get_screenings_with_stats` (dataclass
`ScreeningInfo` in `db.py`). -/
structure ScreeningInfo where
  id : Int
  date : String
  title : String
  capacity : Int
  booked : Nat
deriving DecidableEq, Repr

/-- The `free_places` property of `ScreeningInfo`:
`max(self.capacity - self.booked, 0)`. -/
def ScreeningInfo.free_places (i : ScreeningInfo) : Int :=
  max (i.capacity - (i.booked : Int)) 0

/-- Ordering used by `ORDER BY id` on the screenings table. -/
def screeningLE (a b : Screening) : Prop := a.id ≤ b.id

instance : DecidableRel screeningLE := fun a b =>
  inferInstanceAs (Decidable (a.id ≤ b.id))

instance : IsTotal Screening screeningLE := ⟨fun a b => Int.le_total a.id b.id⟩

instance : IsTrans Screening screeningLE := ⟨fun _ _ _ => Int.le_trans⟩

/-- The `ScreeningInfo` built for one screening row: its fields plus the
active-booking count of that screening. -/
def toInfo (db : DB) (s : Screening) : ScreeningInfo :=
  { id := s.id, date := s.date, title := s.title, capacity := s.capacity
    booked := occupancy db s.id }

/-- Embeds `get_screenings_with_stats` of `db.py`: `SELECT id, date, title,
capacity FROM screenings ORDER BY id`, then one active-booking COUNT per
screening.  A pure read: the state is not modified. -/
def get_screenings_with_stats (db : DB) : List ScreeningInfo :=
  (db.screenings.insertionSort screeningLE).map (toInfo db)

/-- Rowid SQLite assigns to a new screening: one more than the largest id
in use (`INTEGER PRIMARY KEY` without AUTOINCREMENT; ids in this table are
positive in every reachable state). -/
def maxScreeningId (db : DB) : Int :=
  db.screenings.foldl (fun m s => max m s.id) 0

/-- Embeds `add_screening` of `db.py`: inserts a screening row with a
storage-assigned id and returns `cur.lastrowid`. -/
def add_screening (db : DB) (date title : String) (capacity : Int) :
    Int × DB :=
  let newId := maxScreeningId db + 1
  (newId,
   { db with screenings := db.screenings ++
       [{ id := newId, date := date, title := title, capacity := capacity }] })

/-- Embeds `update_screening` of `db.py`: `UPDATE screenings SET date = ?,
title = ?, capacity = ? WHERE id = ?`, returning `cur.rowcount > 0`. -/
def update_screening (db : DB) (screening_id : Int) (date title : String)
    (capacity : Int) : Bool × DB :=
  (decide (0 < db.screenings.countP (fun s => decide (s.id = screening_id))),
   { db with
     screenings := db.screenings.map (fun s =>
       if s.id = screening_id then
         { s with date := date, title := title, capacity := capacity }
       else s) })

/-- Embeds `delete_screening` of `db.py`: first counts ALL booking rows
referencing the screening (any status); if any exist, returns
"has_bookings" without deleting; otherwise runs the DELETE and reports
"not_found" when `cur.rowcount == 0`, else "ok". -/
def delete_screening (db : DB) (screening_id : Int) : String × DB :=
  if 0 < db.bookings.countP (fun b => decide (b.screening_id = screening_id))
  then ("has_bookings", db)
  else
    let remaining := db.screenings.filter (fun s => decide (¬ s.id = screening_id))
    if db.screenings.countP (fun s => decide (s.id = screening_id)) = 0 then
      ("not_found", { db with screenings := remaining })
    else
      ("ok", { db with screenings := remaining })

/-- Embeds `init_db` of `db.py` run on a fresh database file: both tables
empty, then the six seed screenings inserted. -/
def init_db : DB :=
  { screenings :=
      [ { id := 1, date := "23.11", title := "Милая Френсис", capacity := 24 }
      , { id := 2, date := "30.11", title := "Она", capacity := 24 }
      , { id := 3, date := "07.12", title := "Перед рассветом", capacity := 24 }
      , { id := 4, date := "14.12", title := "Амели", capacity := 24 }
      , { id := 5, date := "21.12", title := "Вкус вишни", capacity := 24 }
      , { id := 6, date := "28.12", title := "Париж, я люблю тебя", capacity := 24 } ]
    bookings := []
    nextBookingId := 1 }

/-- One call into the booking engine, with all its arguments.  Applying an
`Op` runs the corresponding `db.py` function and keeps its post-state
(an uncaught `IntegrityError` rolls the transaction back, leaving the
state unchanged). -/
inductive Op where
  | create (screening_id user_id : Int) (username full_name : Option String)
      (now : String)
  | cancel (booking_id user_id : Int) (now : String)
  | add (date title : String) (capacity : Int)
  | update (screening_id : Int) (date title : String) (capacity : Int)
  | delete (screening_id : Int)
deriving DecidableEq, Repr

/-- The state transition of one engine call. -/
def Op.apply (db : DB) : Op → DB
  | .create sid uid un fn now =>
    match create_booking db sid uid un fn now with
    | .ok (_, db') => db'
    | .error _ => db
  | .cancel bid uid now => (cancel_booking db bid uid now).2
  | .add d t c => (add_screening db d t c).2
  | .update sid d t c => (update_screening db sid d t c).2
  | .delete sid => (delete_screening db sid).2

/-- Runs a sequence of engine calls in order. -/
def runOps (db : DB) (ops : List Op) : DB :=
  ops.foldl Op.apply db

/-- `Op`s that are `create_booking` or `cancel_booking` calls. -/
def Op.isBookingOp : Op → Bool
  | .create _ _ _ _ _ => true
  | .cancel _ _ _ => true
  | _ => false

/-- `Op`s that are `add_screening` or `update_screening` calls whose
capacity argument is non-negative. -/
def Op.isSchedEditNonneg : Op → Bool
  | .add _ _ c => decide (0 ≤ c)
  | .update _ _ _ c => decide (0 ≤ c)
  | _ => false

/-- Invariant: every screening's occupancy is at most its capacity. -/
def OccInv (db : DB) : Prop :=
  ∀ s ∈ db.screenings, (occupancy db s.id : Int) ≤ s.capacity

/-- Invariant: every screening's capacity is non-negative. -/
def CapInv (db : DB) : Prop :=
  ∀ s ∈ db.screenings, 0 ≤ s.capacity

/-- Invariant: at most one booking row (of any status) per
`(screening_id, user_id)` pair — the schema constraint
`UNIQUE (screening_id, user_id)`. -/
def PairUnique (db : DB) : Prop :=
  (db.bookings.map (fun b => (b.screening_id, b.user_id))).Nodup

/-- State after user 7 books seeded screening 1: one active booking row
with id 1. -/
def rebookDb1 : DB :=
  (Op.create 1 7 (some "alice") (some "Alice") "t1").apply init_db

/-- State after user 7 then cancels that booking via `cancel_booking`. -/
def rebookDb2 : DB :=
  (Op.cancel 1 7 "t2").apply rebookDb1

/-- Arguments of one in-flight `create_booking` call, for the
statement-interleaving model below. -/
structure CBCall where
  screening_id : Int
  user_id : Int
  username : Option String
  full_name : Option String
  now : String
deriving DecidableEq, Repr

/-- Progress of one in-flight `create_booking` call.  Each SQL statement
of the function is a separate step: the Python code opens a fresh
connection per call and (in the sqlite3 module's default mode) runs its
SELECTs in autocommit, outside any transaction, so between two of its
statements other connections can commit writes.  Values already fetched
(`capacity`, the active-booking count) live in Python locals and are kept
in the phase, not re-read. -/
inductive CBPhase where
  | start
  | haveScreening (capacity : Int)
  | noActive (capacity : Int)
  | haveCount (capacity : Int) (booked : Nat)
  | returned (result : Except String String)
deriving Repr

/-- One SQL statement of an in-flight `create_booking` call, run against
the current shared database state. -/
def cbMicroStep (c : CBCall) (db : DB) : CBPhase → CBPhase × DB
  | .start =>
    match db.screenings.find? (fun s => decide (s.id = c.screening_id)) with
    | none => (.returned (.ok "no_screening"), db)
    | some s => (.haveScreening s.capacity, db)
  | .haveScreening cap =>
    if db.bookings.any (activePairFor c.screening_id c.user_id) then
      (.returned (.ok "already"), db)
    else (.noActive cap, db)
  | .noActive cap =>
    (.haveCount cap (db.bookings.countP (activeFor c.screening_id)), db)
  | .haveCount cap booked =>
    if cap ≤ (booked : Int) then (.returned (.ok "full"), db)
    else if db.bookings.any (pairFor c.screening_id c.user_id) then
      (.returned (.error uniqueViolation), db)
    else
      (.returned (.ok "ok"),
       insertBooking db
         (newBookingRow db c.screening_id c.user_id c.username c.full_name c.now))
  | .returned r => (.returned r, db)

/-- Two concurrent `create_booking` callers sharing one database. -/
structure RaceState where
  phase1 : CBPhase
  phase2 : CBPhase
  db : DB
deriving Repr

/-- Let caller 1 (`true`) or caller 2 (`false`) run its next statement. -/
def raceStep (c1 c2 : CBCall) (st : RaceState) (which : Bool) : RaceState :=
  if which then
    let s := cbMicroStep c1 st.db st.phase1
    { st with phase1 := s.1, db := s.2 }
  else
    let s := cbMicroStep c2 st.db st.phase2
    { st with phase2 := s.1, db := s.2 }

/-- Run two concurrent `create_booking` calls under a given interleaving
(the schedule lists which caller runs each next statement). -/
def runRace (c1 c2 : CBCall) (db : DB) (sched : List Bool) : RaceState :=
  sched.foldl (raceStep c1 c2) ⟨.start, .start, db⟩

/-- Run the four statements of one `create_booking` call back to back with
no interleaved writer (used to check the micro-step model against
`create_booking` itself). -/
def cbRun (c : CBCall) (db : DB) : CBPhase × DB :=
  let s1 := cbMicroStep c db .start
  let s2 := cbMicroStep c s1.2 s1.1
  let s3 := cbMicroStep c s2.2 s2.1
  cbMicroStep c s3.2 s3.1

/-- A screening with a single remaining seat and no bookings yet. -/
def lastSeatDb : DB :=
  { screenings := [{ id := 1, date := "01.01", title := "Last Seat", capacity := 1 }]
    bookings := []
    nextBookingId := 1 }

/-- User 7's call competing for the last seat. -/
def raceCall1 : CBCall :=
  { screening_id := 1, user_id := 7, username := some "alice"
    full_name := some "Alice", now := "t1" }

/-- User 8's call competing for the last seat. -/
def raceCall2 : CBCall :=
  { screening_id := 1, user_id := 8, username := some "bob"
    full_name := some "Bob", now := "t1" }

/-- The racy interleaving: both callers run their three SELECTs (screening
lookup, active-pair check, occupancy count) before either runs its
INSERT. -/
def racySchedule : List Bool :=
  [true, true, true, false, false, false, true, false]

/-- Demo call sequence: user 7 books seeded screening 1, then cancels. -/
def c2DemoOps : List Op :=
  [Op.create 1 7 (some "alice") (some "Alice") "t1", Op.cancel 1 7 "t2"]

/-- Demo admin sequence: add one screening with non-negative capacity. -/
def capDemoOps : List Op :=
  [Op.add "10.03" "Film X" 10]

/-- A screening of capacity 5 with one active booking, used to exercise
`update_screening` shrinking capacity below occupancy. -/
def shrinkDemoDb : DB :=
  { screenings := [{ id := 1, date := "01.02", title := "Shrink Me", capacity := 5 }]
    bookings := [{ id := 1, screening_id := 1, user_id := 7, username := none
                   full_name := none, created_at := "t0", canceled_at := none }]
    nextBookingId := 2 }

/-- Referential integrity: every booking row references an existing
screening.  Holds in every reachable state (proved below) and justifies
the hypothesis of the `delete_screening` theorem. -/
def RefInt (db : DB) : Prop :=
  ∀ b ∈ db.bookings, ∃ s ∈ db.screenings, s.id = b.screening_id

/-!
Theorems.  Each claim of the specification gets one theorem below; shared
helper lemmas come first.
-/

/-- Sanity check of the statement-interleaving model: running the four
statements of one `create_booking` call back to back, with no interleaved
writer, gives exactly the result and post-state of `create_booking`. -/
theorem cbRun_eq_create_booking (c : CBCall) (db : DB) :
    cbRun c db =
      match create_booking db c.screening_id c.user_id c.username c.full_name c.now with
      | .ok (r, db') => (CBPhase.returned (.ok r), db')
      | .error e => (CBPhase.returned (.error e), db) := by
  rcases hf : db.screenings.find? (fun s => decide (s.id = c.screening_id)) with _ | s
  · simp [cbRun, cbMicroStep, create_booking, hf]
  · by_cases h1 : db.bookings.any (activePairFor c.screening_id c.user_id)
    · simp [cbRun, cbMicroStep, create_booking, hf, h1]
    · by_cases h2 : s.capacity ≤ ((db.bookings.countP (activeFor c.screening_id) : Nat) : Int)
      · simp [cbRun, cbMicroStep, create_booking, hf, h1, h2]
      · by_cases h3 : db.bookings.any (pairFor c.screening_id c.user_id)
        · simp [cbRun, cbMicroStep, create_booking, hf, h1, h2, h3]
        · simp [cbRun, cbMicroStep, create_booking, hf, h1, h2, h3]

/-- C1: canceling a booking and re-booking the same screening by the same
user is claimed to return Ok with a fresh row.  On the code it does not:
the first booking succeeds (row id 1), the cancellation succeeds and the
canceled row keeps a non-null `canceled_at`, but the re-booking INSERT
violates the schema constraint `UNIQUE (screening_id, user_id)` — which
ranges over canceled rows too — and raises an uncaught
`sqlite3.IntegrityError` instead of returning "ok". -/
theorem c1_rebook_after_cancel_hits_unique_violation :
    create_booking init_db 1 7 (some "alice") (some "Alice") "t1" =
      .ok ("ok", rebookDb1) ∧
    (∃ b ∈ rebookDb1.bookings,
      b.id = 1 ∧ b.screening_id = 1 ∧ b.user_id = 7 ∧ b.canceled_at = none) ∧
    (cancel_booking rebookDb1 1 7 "t2").1 = true ∧
    (∃ b ∈ rebookDb2.bookings, b.id = 1 ∧ b.canceled_at = some "t2") ∧
    create_booking rebookDb2 1 7 (some "alice") (some "Alice") "t3" =
      .error uniqueViolation := by
  refine ⟨rfl, ?_, rfl, ?_, rfl⟩ <;> decide

/-- C3: the claimed decision order ends with "otherwise it inserts one new
booking row … and returns Ok".  In the state reached by booking and then
canceling, the screening exists, the user has no active booking, and the
active count (0) is below capacity (24), so the claim requires outcome
"ok"; the code instead raises `sqlite3.IntegrityError` from the INSERT
because a canceled row for the pair still exists. -/
theorem c3_decision_order_violated_after_cancel :
    (∃ s ∈ rebookDb2.screenings, s.id = 1 ∧ s.capacity = 24) ∧
    rebookDb2.bookings.any (activePairFor 1 7) = false ∧
    (occupancy rebookDb2 1 : Int) < 24 ∧
    create_booking rebookDb2 1 7 (some "alice") (some "Alice") "t3" =
      .error uniqueViolation := by
  refine ⟨?_, ?_, ?_, rfl⟩ <;> decide

/-- C4: two concurrent `create_booking` calls for the last remaining seat
are claimed to resolve to exactly one Ok and one Full.  The code has no
guard: its SELECTs run in autocommit on a per-call connection, so under
the interleaving in which both callers count occupancy before either
inserts, both calls return "ok" and occupancy reaches 2 on a screening of
capacity 1. -/
theorem c4_last_seat_race_yields_two_oks :
    (runRace raceCall1 raceCall2 lastSeatDb racySchedule).phase1 =
      .returned (.ok "ok") ∧
    (runRace raceCall1 raceCall2 lastSeatDb racySchedule).phase2 =
      .returned (.ok "ok") ∧
    occupancy (runRace raceCall1 raceCall2 lastSeatDb racySchedule).db 1 = 2 ∧
    (∀ s ∈ lastSeatDb.screenings, s.capacity = 1) :=
  ⟨rfl, rfl, rfl, by decide⟩

/-- Trichotomy of `create_booking` outcomes: an IntegrityError, a non-"ok"
status with the state unchanged, or a committed insert that was guarded by
the screening lookup, the capacity check and the UNIQUE constraint. -/
theorem create_booking_result (db : DB) (sid uid : Int)
    (un fn : Option String) (now : String) :
    create_booking db sid uid un fn now = .error uniqueViolation ∨
    (∃ r, create_booking db sid uid un fn now = .ok (r, db) ∧ r ≠ "ok") ∨
    (create_booking db sid uid un fn now =
        .ok ("ok", insertBooking db (newBookingRow db sid uid un fn now)) ∧
      db.bookings.any (pairFor sid uid) = false ∧
      ∃ s ∈ db.screenings, s.id = sid ∧
        (occupancy db sid : Int) < s.capacity) := by
  rcases hf : db.screenings.find? (fun s => decide (s.id = sid)) with _ | s
  · exact .inr (.inl ⟨"no_screening", by simp [create_booking, hf], by decide⟩)
  · by_cases h1 : db.bookings.any (activePairFor sid uid)
    · exact .inr (.inl ⟨"already", by simp [create_booking, hf, h1], by decide⟩)
    · by_cases h2 : s.capacity ≤ (db.bookings.countP (activeFor sid) : Int)
      · exact .inr (.inl ⟨"full", by simp [create_booking, hf, h1, h2], by decide⟩)
      · by_cases h3 : db.bookings.any (pairFor sid uid)
        · exact .inl (by simp [create_booking, hf, h1, h2, h3])
        · refine .inr (.inr ⟨by simp [create_booking, hf, h1, h2, h3], by simpa using h3,
            s, List.mem_of_find?_eq_some hf, by simpa using List.find?_some hf, ?_⟩)
          simpa [occupancy] using lt_of_not_le h2

/-- One engine call preserves the UNIQUE (screening_id, user_id) invariant. -/
theorem pairUnique_apply (db : DB) (h : PairUnique db) (op : Op) :
    PairUnique (op.apply db) := by
  cases op with
  | create sid uid un fn now =>
    rcases create_booking_result db sid uid un fn now with herr | ⟨r, hok, _⟩ | ⟨hok, hnp, _⟩
    · simpa [Op.apply, herr] using h
    · simpa [Op.apply, hok] using h
    · simp only [Op.apply, hok]
      simp only [PairUnique, insertBooking, List.map_append, List.map_cons, List.map_nil] at h ⊢
      rw [List.nodup_append]
      refine ⟨h, List.nodup_singleton _, ?_⟩
      intro p hp hq
      simp only [List.mem_singleton] at hq
      subst hq
      simp only [List.mem_map] at hp
      rcases hp with ⟨b, hb, hpb⟩
      have : db.bookings.any (pairFor sid uid) = true := by
        refine List.any_eq_true.mpr ⟨b, hb, ?_⟩
        simp only [newBookingRow, Prod.mk.injEq] at hpb
        simp [pairFor, hpb.1, hpb.2]
      rw [this] at hnp; cases hnp
  | cancel bid uid now =>
    simp only [Op.apply, PairUnique, cancel_booking, List.map_map]
    have : ∀ b ∈ db.bookings,
        ((fun b : Booking => (b.screening_id, b.user_id)) ∘ fun b =>
          if cancelMatch bid uid b then { b with canceled_at := some now } else b) b =
        (fun b : Booking => (b.screening_id, b.user_id)) b := by
      intro b _
      by_cases hc : cancelMatch bid uid b <;> simp [hc]
    rw [List.map_congr_left this]
    exact h
  | add d t c => simpa [Op.apply, PairUnique, add_screening] using h
  | update sid d t c => simpa [Op.apply, PairUnique, update_screening] using h
  | delete sid =>
    simp only [Op.apply, delete_screening]
    by_cases hc : 0 < db.bookings.countP (fun b => decide (b.screening_id = sid)) <;>
      by_cases hz : db.screenings.countP (fun s => decide (s.id = sid)) = 0 <;>
      simpa [hc, hz, PairUnique] using h

/-- Any sequence of engine calls preserves the UNIQUE invariant. -/
theorem pairUnique_runOps (db : DB) (h : PairUnique db) (ops : List Op) :
    PairUnique (runOps db ops) := by
  induction ops generalizing db with
  | nil => simpa [runOps] using h
  | cons op rest ih =>
    have : runOps db (op :: rest) = runOps (op.apply db) rest := by
      simp [runOps]
    rw [this]
    exact ih (op.apply db) (pairUnique_apply db h op)

/-- C10: in every reachable state at most one booking row exists per
`(screening_id, user_id)` pair regardless of status: the schema constraint
`UNIQUE (screening_id, user_id)` ranges over canceled rows as well as
active ones, and it is preserved by every engine call.  Moreover, when a
row for the pair already exists (in any status), `create_booking` never
inserts a second one: it either raises the constraint violation or
returns a non-"ok" status with the state unchanged. -/
theorem c10_pair_unique_invariant (db : DB) (h : PairUnique db) :
    (∀ ops : List Op, PairUnique (runOps db ops)) ∧
    (∀ sid uid : Int, ∀ un fn : Option String, ∀ now : String,
      (∃ b ∈ db.bookings, b.screening_id = sid ∧ b.user_id = uid) →
        create_booking db sid uid un fn now = .error uniqueViolation ∨
        ∃ r, create_booking db sid uid un fn now = .ok (r, db) ∧ r ≠ "ok") := by
  refine ⟨fun ops => pairUnique_runOps db h ops, ?_⟩
  intro sid uid un fn now hex
  rcases create_booking_result db sid uid un fn now with herr | hok | ⟨_, hnp, _⟩
  · exact .inl herr
  · exact .inr hok
  · exfalso
    rcases hex with ⟨b, hb, h1, h2⟩
    have : db.bookings.any (pairFor sid uid) = true :=
      List.any_eq_true.mpr ⟨b, hb, by simp [pairFor, h1, h2]⟩
    rw [this] at hnp; cases hnp

theorem c10_witness :
    PairUnique (runOps init_db c2DemoOps) :=
  (c10_pair_unique_invariant init_db (by unfold PairUnique; decide)).1 c2DemoOps

/-- Occupancy after a committed insert. -/
theorem occupancy_insertBooking (db : DB) (b : Booking) (t : Int) :
    occupancy (insertBooking db b) t =
      occupancy db t + (if activeFor t b then 1 else 0) := by
  simp [occupancy, insertBooking, List.countP_append, List.countP_singleton]

/-- `cancel_booking` never increases any screening's occupancy. -/
theorem occupancy_cancel_le (db : DB) (bid uid : Int) (now : String) (t : Int) :
    occupancy (cancel_booking db bid uid now).2 t ≤ occupancy db t := by
  simp only [occupancy, cancel_booking, List.countP_map]
  apply List.countP_mono_left
  intro b hb hpb
  by_cases hc : cancelMatch bid uid b
  · simp only [Function.comp, hc, if_pos] at hpb
    simp [activeFor] at hpb
  · simpa [Function.comp, hc] using hpb

/-- create_booking leaves the screenings table unchanged. -/
theorem create_booking_screenings (db : DB) (sid uid : Int)
    (un fn : Option String) (now : String) :
    ((Op.create sid uid un fn now).apply db).screenings = db.screenings := by
  rcases create_booking_result db sid uid un fn now with herr | ⟨r, hok, _⟩ | ⟨hok, _⟩
  · simp [Op.apply, herr]
  · simp [Op.apply, hok]
  · simp [Op.apply, hok, insertBooking]

/-- create_booking preserves the occupancy bound. -/
theorem occInv_create (db : DB)
    (hnd : (db.screenings.map Screening.id).Nodup) (h : OccInv db)
    (sid uid : Int) (un fn : Option String) (now : String) :
    OccInv ((Op.create sid uid un fn now).apply db) := by
  rcases create_booking_result db sid uid un fn now with herr | ⟨r, hok, _⟩ | ⟨hok, _, s, hs, hsid, hlt⟩
  · simpa [Op.apply, herr] using h
  · simpa [Op.apply, hok] using h
  · simp only [Op.apply, hok]
    intro t ht
    have ht' : t ∈ db.screenings := by simpa [insertBooking] using ht
    rw [occupancy_insertBooking]
    by_cases hts : t.id = sid
    · have hteq : t = s := List.inj_on_of_nodup_map hnd ht' hs (by rw [hts, hsid])
      subst hteq
      have hact : activeFor t.id (newBookingRow db sid uid un fn now) = true := by
        simp [activeFor, newBookingRow, hts]
      rw [hact, if_pos rfl, hts]
      push_cast
      omega
    · have hact : activeFor t.id (newBookingRow db sid uid un fn now) = false := by
        simp [activeFor, newBookingRow]
        intro hcontra
        exact absurd hcontra.symm hts
      simp only [hact, if_neg, Bool.false_eq_true, not_false_iff, add_zero]
      exact h t ht'

/-- cancel_booking preserves the occupancy bound. -/
theorem occInv_cancel (db : DB) (h : OccInv db)
    (bid uid : Int) (now : String) :
    OccInv ((Op.cancel bid uid now).apply db) := by
  intro t ht
  have ht' : t ∈ db.screenings := by simpa [Op.apply, cancel_booking] using ht
  have h1 : occupancy ((Op.cancel bid uid now).apply db) t.id ≤ occupancy db t.id := by
    simpa [Op.apply] using occupancy_cancel_le db bid uid now t.id
  calc (occupancy ((Op.cancel bid uid now).apply db) t.id : Int)
      ≤ (occupancy db t.id : Int) := by exact_mod_cast h1
    _ ≤ t.capacity := h t ht'

/-- C2: for every screening, the count of its booking rows with null
`canceled_at` stays at most the screening's capacity after any sequence of
`create_booking` and `cancel_booking` calls, starting from a state that
satisfies the bound (screening ids are unique, as the PRIMARY KEY
guarantees). -/
theorem c2_occupancy_le_capacity (db : DB)
    (hnd : (db.screenings.map Screening.id).Nodup) (hinv : OccInv db)
    (ops : List Op) (hops : ∀ op ∈ ops, op.isBookingOp = true) :
    OccInv (runOps db ops) := by
  induction ops generalizing db with
  | nil => simpa [runOps] using hinv
  | cons op rest ih =>
    have hrw : runOps db (op :: rest) = runOps (op.apply db) rest := by simp [runOps]
    rw [hrw]
    have hop : op.isBookingOp = true := hops op (by simp)
    have hscr : (op.apply db).screenings = db.screenings := by
      cases op with
      | create sid uid un fn now => exact create_booking_screenings db sid uid un fn now
      | cancel bid uid now => simp [Op.apply, cancel_booking]
      | add d t c => simp [Op.isBookingOp] at hop
      | update sid d t c => simp [Op.isBookingOp] at hop
      | delete sid => simp [Op.isBookingOp] at hop
    have hstep : OccInv (op.apply db) := by
      cases op with
      | create sid uid un fn now => exact occInv_create db hnd hinv sid uid un fn now
      | cancel bid uid now => exact occInv_cancel db hinv bid uid now
      | add d t c => simp [Op.isBookingOp] at hop
      | update sid d t c => simp [Op.isBookingOp] at hop
      | delete sid => simp [Op.isBookingOp] at hop
    exact ih (op.apply db) (by rw [hscr]; exact hnd) hstep
      (fun o ho => hops o (List.mem_cons_of_mem op ho))

theorem c2_witness :
    (occupancy (runOps init_db c2DemoOps) 1 : Int) ≤ 24 :=
  c2_occupancy_le_capacity init_db (by decide)
    (by unfold OccInv; decide) c2DemoOps (by decide)
    { id := 1, date := "23.11", title := "Милая Френсис", capacity := 24 }
    (by decide)

/-- C5 counterexample: the claim says capacity stays non-negative
whatever integer capacity arguments the callers pass; but
`add_screening("10.03", "Film X", -1)` on the seeded database stores a
screening with capacity -1 — neither function validates capacity. -/
theorem c5_counterexample :
    ¬ ∀ s ∈ (runOps init_db [Op.add "10.03" "Film X" (-1)]).screenings,
        0 ≤ s.capacity := by
  decide

/-- C5 amended: every screening's capacity is non-negative after any
sequence of `add_screening` and `update_screening` calls whose capacity
arguments are all non-negative; the operations themselves never turn a
non-negative capacity negative, but they do not validate their input. -/
theorem c5_capacity_nonneg_of_nonneg_args (db : DB) (hinv : CapInv db)
    (ops : List Op) (hops : ∀ op ∈ ops, op.isSchedEditNonneg = true) :
    CapInv (runOps db ops) := by
  induction ops generalizing db with
  | nil => simpa [runOps] using hinv
  | cons op rest ih =>
    have hrw : runOps db (op :: rest) = runOps (op.apply db) rest := by simp [runOps]
    rw [hrw]
    have hop : op.isSchedEditNonneg = true := hops op (by simp)
    have hstep : CapInv (op.apply db) := by
      cases op with
      | add d t c =>
        intro s hs
        simp only [Op.apply, add_screening, List.mem_append, List.mem_singleton] at hs
        rcases hs with hs | hs
        · exact hinv s hs
        · subst hs
          simpa [Op.isSchedEditNonneg] using hop
      | update sid d t c =>
        intro s hs
        simp only [Op.apply, update_screening, List.mem_map] at hs
        rcases hs with ⟨s0, hs0, hmap⟩
        by_cases hid : s0.id = sid
        · rw [← hmap]
          simp only [hid, if_pos]
          simpa [Op.isSchedEditNonneg] using hop
        · rw [← hmap]
          simp only [hid, if_neg, not_false_iff]
          exact hinv s0 hs0
      | create sid uid un fn now => simp [Op.isSchedEditNonneg] at hop
      | cancel bid uid now => simp [Op.isSchedEditNonneg] at hop
      | delete sid => simp [Op.isSchedEditNonneg] at hop
    exact ih (op.apply db) hstep (fun o ho => hops o (List.mem_cons_of_mem op ho))

theorem c5_witness :
    0 ≤ ({ id := 7, date := "10.03", title := "Film X", capacity := 10 } : Screening).capacity :=
  c5_capacity_nonneg_of_nonneg_args init_db (by unfold CapInv; decide)
    capDemoOps (by decide)
    { id := 7, date := "10.03", title := "Film X", capacity := 10 }
    (by decide)

/-- C6: `cancel_booking(booking_id, user_id)` returns true iff a booking
row with that id, owned by `user_id` and still active exists; exactly the
matching rows get `canceled_at` set to the non-null timestamp, every other
row is kept verbatim, the screenings table and the id sequence are
untouched, and when it returns false the state is unchanged. -/
theorem c6_cancel_booking_spec (db : DB) (bid uid : Int) (now : String) :
    ((cancel_booking db bid uid now).1 = true ↔
      ∃ b ∈ db.bookings, b.id = bid ∧ b.user_id = uid ∧ b.canceled_at = none) ∧
    ((cancel_booking db bid uid now).1 = false →
      (cancel_booking db bid uid now).2 = db) ∧
    (cancel_booking db bid uid now).2.screenings = db.screenings ∧
    (cancel_booking db bid uid now).2.nextBookingId = db.nextBookingId ∧
    (cancel_booking db bid uid now).2.bookings.length = db.bookings.length ∧
    (∀ b ∈ db.bookings, b.id = bid ∧ b.user_id = uid ∧ b.canceled_at = none →
      { b with canceled_at := some now } ∈ (cancel_booking db bid uid now).2.bookings) ∧
    (∀ b ∈ db.bookings, ¬(b.id = bid ∧ b.user_id = uid ∧ b.canceled_at = none) →
      b ∈ (cancel_booking db bid uid now).2.bookings) := by
  refine ⟨?_, ?_, rfl, rfl, by simp [cancel_booking], ?_, ?_⟩
  · simp [cancel_booking, List.countP_pos_iff, cancelMatch]
  · intro hfalse
    simp only [cancel_booking, decide_eq_false_iff_not, Nat.not_lt, Nat.le_zero,
      List.countP_eq_zero] at hfalse
    have hmap : db.bookings.map (fun b =>
        if cancelMatch bid uid b then { b with canceled_at := some now } else b) =
        db.bookings := by
      have := List.map_congr_left (l := db.bookings)
        (f := fun b => if cancelMatch bid uid b then { b with canceled_at := some now } else b)
        (g := id) (fun b hb => by simp [hfalse b hb])
      simpa using this
    simp [cancel_booking, hmap]
  · intro b hb hmatch
    simp only [cancel_booking]
    refine List.mem_map.mpr ⟨b, hb, ?_⟩
    simp [cancelMatch, hmatch.1, hmatch.2.1, hmatch.2.2]
  · intro b hb hmatch
    simp only [cancel_booking]
    refine List.mem_map.mpr ⟨b, hb, ?_⟩
    simp [cancelMatch, hmatch]

/-- C9: `get_screenings_with_stats` returns one entry per screening,
ordered by ascending screening id; each entry's `booked` field is the
count of that screening's booking rows with null `canceled_at`, and its
`free_places` is `max(capacity - booked, 0)`.  The function is a pure
read: it takes the state and returns only a list, performing no writes. -/
theorem c9_stats_spec (db : DB) :
    (get_screenings_with_stats db).length = db.screenings.length ∧
    List.Sorted (fun a b : ScreeningInfo => a.id ≤ b.id) (get_screenings_with_stats db) ∧
    (∀ s ∈ db.screenings, toInfo db s ∈ get_screenings_with_stats db) ∧
    (∀ i ∈ get_screenings_with_stats db, ∃ s ∈ db.screenings, i = toInfo db s) ∧
    (∀ i ∈ get_screenings_with_stats db,
      i.booked = db.bookings.countP (activeFor i.id) ∧
      i.free_places = max (i.capacity - (i.booked : Int)) 0) := by
  refine ⟨?_, ?_, ?_, ?_, ?_⟩
  · simp [get_screenings_with_stats, List.length_insertionSort]
  · have hs := List.sorted_insertionSort screeningLE db.screenings
    simp only [get_screenings_with_stats, List.Sorted]
    rw [List.pairwise_map]
    exact hs
  · intro s hs
    exact List.mem_map.mpr
      ⟨s, (List.perm_insertionSort screeningLE db.screenings).mem_iff.mpr hs, rfl⟩
  · intro i hi
    rcases List.mem_map.mp hi with ⟨s, hs, rfl⟩
    exact ⟨s, (List.perm_insertionSort screeningLE db.screenings).mem_iff.mp hs, rfl⟩
  · intro i hi
    rcases List.mem_map.mp hi with ⟨s, hs, rfl⟩
    exact ⟨rfl, rfl⟩

/-- C7: `update_screening` with a capacity lower than the screening's
current occupancy returns true, leaves every booking row unchanged, and
the screening's free-seat count is subsequently reported as 0 by
`get_screenings_with_stats`, never negative. -/
theorem c7_update_shrink (db : DB) (sid : Int) (d t : String) (cap : Int)
    (hs : ∃ s ∈ db.screenings, s.id = sid)
    (hocc : cap < (occupancy db sid : Int)) :
    (update_screening db sid d t cap).1 = true ∧
    (update_screening db sid d t cap).2.bookings = db.bookings ∧
    (∃ i ∈ get_screenings_with_stats (update_screening db sid d t cap).2,
      i.id = sid) ∧
    (∀ i ∈ get_screenings_with_stats (update_screening db sid d t cap).2,
      i.id = sid → i.free_places = 0) := by
  rcases hs with ⟨s, hsmem, hsid⟩
  refine ⟨?_, rfl, ?_, ?_⟩
  · simp only [update_screening, decide_eq_true_eq, List.countP_pos_iff]
    exact ⟨s, hsmem, by simp [hsid]⟩
  · refine ⟨toInfo (update_screening db sid d t cap).2
      (if s.id = sid then { s with date := d, title := t, capacity := cap } else s), ?_, ?_⟩
    · refine List.mem_map.mpr ⟨_, ?_, rfl⟩
      rw [(List.perm_insertionSort screeningLE _).mem_iff]
      exact List.mem_map.mpr ⟨s, hsmem, rfl⟩
    · simp [toInfo, hsid]
  · intro i hi hid
    rcases List.mem_map.mp hi with ⟨s', hs', rfl⟩
    rw [(List.perm_insertionSort screeningLE _).mem_iff] at hs'
    simp only [update_screening] at hs'
    rcases List.mem_map.mp hs' with ⟨s0, hs0, rfl⟩
    by_cases h0 : s0.id = sid
    · rw [if_pos h0]
      have hbooked : occupancy (update_screening db sid d t cap).2 s0.id = occupancy db sid := by
        rw [h0]; rfl
      simp only [ScreeningInfo.free_places, toInfo, hbooked]
      exact max_eq_right (by omega)
    · exfalso
      have : (if s0.id = sid then { s0 with date := d, title := t, capacity := cap } else s0).id = s0.id := by
        simp [h0]
      simp only [toInfo] at hid
      rw [this] at hid
      exact h0 hid

/-- C8: `delete_screening` returns "has_bookings" and changes nothing
when any booking row (active or canceled) references the screening;
returns "not_found" (changing nothing) when no screening with that id
exists; and returns "ok" exactly when the screening exists and no booking
row references it, in which case the screening is removed and everything
else is kept.  The hypothesis is referential integrity at `sid`, which
holds in every reachable state by `refInt_runOps` (the code checks
bookings before existence, so on an unreachable state with a dangling
booking row it would report "has_bookings" for a nonexistent id). -/
theorem c8_delete_screening_spec (db : DB) (sid : Int)
    (hri : (∃ b ∈ db.bookings, b.screening_id = sid) →
      ∃ s ∈ db.screenings, s.id = sid) :
    ((∃ b ∈ db.bookings, b.screening_id = sid) →
      (delete_screening db sid).1 = "has_bookings" ∧
      (delete_screening db sid).2 = db) ∧
    ((¬ ∃ s ∈ db.screenings, s.id = sid) →
      (delete_screening db sid).1 = "not_found" ∧
      (delete_screening db sid).2 = db) ∧
    ((delete_screening db sid).1 = "ok" ↔
      (∃ s ∈ db.screenings, s.id = sid) ∧
      ¬ ∃ b ∈ db.bookings, b.screening_id = sid) ∧
    ((delete_screening db sid).1 = "ok" →
      (delete_screening db sid).2.bookings = db.bookings ∧
      (¬ ∃ s ∈ (delete_screening db sid).2.screenings, s.id = sid) ∧
      ∀ s ∈ db.screenings, s.id ≠ sid →
        s ∈ (delete_screening db sid).2.screenings) := by
  have hbne : ("has_bookings" : String) ≠ "ok" := by decide
  have hnne : ("not_found" : String) ≠ "ok" := by decide
  by_cases hb : 0 < db.bookings.countP (fun b => decide (b.screening_id = sid))
  · have hres : delete_screening db sid = ("has_bookings", db) := by
      simp only [delete_screening]
      rw [if_pos hb]
    have hex : ∃ b ∈ db.bookings, b.screening_id = sid := by
      simpa using List.countP_pos_iff.mp hb
    rw [hres]
    refine ⟨fun _ => ⟨rfl, rfl⟩, fun hns => absurd (hri hex) hns, ?_, fun h => absurd h hbne⟩
    exact ⟨fun h => absurd h hbne, fun h => absurd hex h.2⟩
  · have hnex : ¬ ∃ b ∈ db.bookings, b.screening_id = sid := by
      rintro ⟨b, hbm, hbs⟩
      exact hb (List.countP_pos_iff.mpr ⟨b, hbm, by simp [hbs]⟩)
    by_cases hz : db.screenings.countP (fun s => decide (s.id = sid)) = 0
    · have hall : ∀ s ∈ db.screenings, ¬ s.id = sid := by
        intro s hs
        have := List.countP_eq_zero.mp hz s hs
        simpa using this
      have hfil : db.screenings.filter (fun s => decide (¬ s.id = sid)) = db.screenings :=
        List.filter_eq_self.mpr (fun s hs => by simpa using hall s hs)
      have hres : delete_screening db sid = ("not_found", db) := by
        simp only [delete_screening]
        rw [if_neg hb, if_pos hz, hfil]
      rw [hres]
      refine ⟨fun hex => absurd hex hnex, fun _ => ⟨rfl, rfl⟩, ?_, fun h => absurd h hnne⟩
      refine ⟨fun h => absurd h hnne, fun h => ?_⟩
      rcases h.1 with ⟨s, hs, hsid⟩
      exact absurd hsid (hall s hs)
    · have hres : delete_screening db sid =
          ("ok", { db with
            screenings := db.screenings.filter (fun s => decide (¬ s.id = sid)) }) := by
        simp only [delete_screening]
        rw [if_neg hb, if_neg hz]
      have hexs : ∃ s ∈ db.screenings, s.id = sid := by
        have := List.countP_pos_iff.mp (Nat.pos_of_ne_zero hz)
        simpa using this
      rw [hres]
      refine ⟨fun hex => absurd hex hnex, fun hns => absurd hexs hns,
        ⟨fun _ => ⟨hexs, hnex⟩, fun _ => rfl⟩, ?_⟩
      rintro -
      refine ⟨rfl, ?_, ?_⟩
      · rintro ⟨s, hs, hsid⟩
        rcases List.mem_filter.mp hs with ⟨-, hdec⟩
        simp only [decide_eq_true_eq] at hdec
        exact hdec hsid
      · intro s hs hsid
        exact List.mem_filter.mpr ⟨hs, by simpa using hsid⟩

theorem c7_witness :
    (update_screening shrinkDemoDb 1 "02.02" "Shrunk" 0).1 = true :=
  (c7_update_shrink shrinkDemoDb 1 "02.02" "Shrunk" 0 (by decide) (by decide)).1

theorem c8_witness :
    (delete_screening init_db 6).1 = "ok" :=
  ((c8_delete_screening_spec init_db 6 (by decide)).2.2.1).mpr ⟨by decide, by decide⟩

/-- Every engine call preserves referential integrity (justifying the
hypothesis of the delete_screening theorem on reachable states). -/
theorem refInt_apply (db : DB) (h : RefInt db) (op : Op) : RefInt (op.apply db) := by
  cases op with
  | create sid uid un fn now =>
    rcases create_booking_result db sid uid un fn now with herr | ⟨r, hok, _⟩ | ⟨hok, _, s, hs, hsid, _⟩
    · simpa [Op.apply, herr] using h
    · simpa [Op.apply, hok] using h
    · simp only [Op.apply, hok]
      intro b hb
      simp only [insertBooking, List.mem_append, List.mem_singleton] at hb
      rcases hb with hb | hb
      · exact h b hb
      · subst hb
        exact ⟨s, hs, by simpa [newBookingRow] using hsid⟩
  | cancel bid uid now =>
    intro b hb
    simp only [Op.apply, cancel_booking, List.mem_map] at hb
    rcases hb with ⟨b0, hb0, hmap⟩
    rcases h b0 hb0 with ⟨s, hs, hsid⟩
    refine ⟨s, hs, ?_⟩
    rw [← hmap]
    by_cases hc : cancelMatch bid uid b0 <;> simp [hc, hsid]
  | add d t c =>
    intro b hb
    simp only [Op.apply, add_screening] at hb ⊢
    rcases h b hb with ⟨s, hs, hsid⟩
    exact ⟨s, List.mem_append_left _ hs, hsid⟩
  | update sid d t c =>
    intro b hb
    simp only [Op.apply, update_screening] at hb ⊢
    rcases h b hb with ⟨s, hs, hsid⟩
    refine ⟨if s.id = sid then { s with date := d, title := t, capacity := c } else s,
      List.mem_map.mpr ⟨s, hs, rfl⟩, ?_⟩
    by_cases hc : s.id = sid <;> simp [hc, ← hsid]
  | delete sid =>
    by_cases hb : 0 < db.bookings.countP (fun b => decide (b.screening_id = sid))
    · have hres : delete_screening db sid = ("has_bookings", db) := by
        simp only [delete_screening]
        rw [if_pos hb]
      simpa [Op.apply, hres] using h
    · have hnone : ∀ b ∈ db.bookings, ¬ b.screening_id = sid := by
        intro b hbm hbs
        exact hb (List.countP_pos_iff.mpr ⟨b, hbm, by simp [hbs]⟩)
      intro b hbm
      have hbm' : b ∈ db.bookings := by
        simp only [Op.apply, delete_screening] at hbm
        rw [if_neg hb] at hbm
        by_cases hz : db.screenings.countP (fun s => decide (s.id = sid)) = 0 <;>
          simpa [hz] using hbm
      rcases h b hbm' with ⟨s, hs, hsid⟩
      have hsne : ¬ s.id = sid := by
        rw [hsid]; exact hnone b hbm'
      have hsmem : s ∈ db.screenings.filter (fun s => decide (¬ s.id = sid)) :=
        List.mem_filter.mpr ⟨hs, by simpa using hsne⟩
      refine ⟨s, ?_, hsid⟩
      simp only [Op.apply, delete_screening]
      rw [if_neg hb]
      by_cases hz : db.screenings.countP (fun s => decide (s.id = sid)) = 0 <;>
        simpa [hz] using hsmem

/-- Referential integrity holds in every state reachable from a state
satisfying it, in particular from the freshly initialized database. -/
theorem refInt_runOps (db : DB) (h : RefInt db) (ops : List Op) :
    RefInt (runOps db ops) := by
  induction ops generalizing db with
  | nil => simpa [runOps] using h
  | cons op rest ih =>
    have hrw : runOps db (op :: rest) = runOps (op.apply db) rest := by simp [runOps]
    rw [hrw]
    exact ih (op.apply db) (refInt_apply db h op)
